import Mathlib

/-!
Verification of the haiku templator core (pkg/templator/jsonnet.go):
the recursive resource-extraction walk (jsonWalk), the list flattener
(FlattenToV1), the entry-file / import-path resolver (getJPathsAndFile)
and the parseYaml native-function loop, shallowly embedded in Lean.
-/

namespace Templator

/-- A decoded JSON value, as produced by Go's encoding/json Unmarshal into
interface{}: a string, a number (float64 in Go; the numeric payload is
carried as Int here since no studied property inspects numeric values),
a bool, null (Go: nil interface), an object (Go: map[string]interface{},
modelled as an association list whose order stands in for Go's
unspecified map-iteration order), or an array. -/
inductive JValue : Type where
  | str : String → JValue
  | num : Int → JValue
  | bool : Bool → JValue
  | null : JValue
  | obj : List (String × JValue) → JValue
  | arr : List JValue → JValue

/-- The content of a k8s unstructured object: a JSON object (map). -/
abbrev JObj := List (String × JValue)

/-- Go map indexing o[k]: the value stored at key k, if any. -/
def jlookup : JObj → String → Option JValue
  | [], _ => none
  | (k2, v) :: rest, k => if k2 = k then some v else jlookup rest k

/-- Go's `o[k] != nil` on a decoded JSON map: the key is present and its
value is not JSON null (both a missing key and a null value read as nil). -/
def isNonNull : Option JValue → Bool
  | some JValue.null => false
  | some _ => true
  | none => false

/-- The resource-descriptor test of jsonWalk:
`o["kind"] != nil && o["apiVersion"] != nil`. -/
def isResourceL (o : JObj) : Bool :=
  isNonNull (jlookup o "kind") && isNonNull (jlookup o "apiVersion")

/-- Go's %T verb on a decoded JSON value that is neither a map nor a
slice, as used in jsonWalk's error message. -/
def goTypeName : JValue → String
  | JValue.str _ => "string"
  | JValue.num _ => "float64"
  | JValue.bool _ => "bool"
  | JValue.null => "<nil>"
  | JValue.obj _ => "map[string]interface {}"
  | JValue.arr _ => "[]interface {}"

mutual

/-- jsonWalk from jsonnet.go: a map carrying non-null kind and apiVersion
is returned as a singleton; any other map has its values walked and the
results concatenated (iteration order is the association-list order,
standing in for Go's unspecified map order); a slice has its elements
walked in order; anything else is an error naming the Go type. -/
def jsonWalk : JValue → Except String (List JValue)
  | JValue.obj o =>
      if isResourceL o then Except.ok [JValue.obj o]
      else jsonWalkFields o
  | JValue.arr a => jsonWalkElems a
  | v => Except.error ("Unexpected object structure: " ++ goTypeName v)

/-- The `for _, v := range o` loop of jsonWalk's map case: walk each value,
abort on the first error, concatenate the children. -/
def jsonWalkFields : List (String × JValue) → Except String (List JValue)
  | [] => Except.ok []
  | (_, v) :: rest =>
      match jsonWalk v with
      | Except.error e => Except.error e
      | Except.ok cs =>
          match jsonWalkFields rest with
          | Except.error e => Except.error e
          | Except.ok rs => Except.ok (cs ++ rs)

/-- The `for _, v := range o` loop of jsonWalk's slice case. -/
def jsonWalkElems : List JValue → Except String (List JValue)
  | [] => Except.ok []
  | v :: rest =>
      match jsonWalk v with
      | Except.error e => Except.error e
      | Except.ok cs =>
          match jsonWalkElems rest with
          | Except.error e => Except.error e
          | Except.ok rs => Except.ok (cs ++ rs)

end

/-- The item collection of a list-wrapper object: the sequence held under
its `items` key, if that key holds a sequence. An object with no `items`
key, or whose `items` value is not a sequence, is not a list-wrapper. -/
def jitems (o : JObj) : Option (List JValue) :=
  match jlookup o "items" with
  | some (JValue.arr its) => some its
  | _ => none

/-- A runtime.Object as produced by UnstructuredJSONScheme.Decode:
either an *unstructured.UnstructuredList (with its Items) or a plain
*unstructured.Unstructured. Decode yields no other concrete type, but the
source's switch in FlattenToV1 has a default branch for any other
runtime.Object, modelled by the `other` constructor. -/
inductive RuntimeObject : Type where
  | unstructuredList : List JObj → RuntimeObject
  | unstructured : JObj → RuntimeObject
  | other : RuntimeObject

/-- The inner loop of FlattenToV1's list case,
`for _, item := range o.Items { ret = append(ret, &item) }`:
`item` is a single variable declared once for the whole loop (Go pre-1.22
range semantics; the repository predates go.mod version directives), so
every appended pointer is the address of that one variable, and after the
loop each of them observes the value of the final iteration. The loop's
contribution is therefore |Items| references to the last item. -/
def aliasedItems (items : List JObj) : List JObj :=
  match items.getLast? with
  | none => []
  | some last => items.map fun _ => last

/-- FlattenToV1 from jsonnet.go: expands every UnstructuredList into the
pointers appended by its range loop (see aliasedItems), passes every plain
Unstructured through, and panics (modelled as none) on any other object
type. -/
def FlattenToV1 : List RuntimeObject → Option (List JObj)
  | [] => some []
  | RuntimeObject.unstructuredList items :: rest =>
      match FlattenToV1 rest with
      | some r => some (aliasedItems items ++ r)
      | none => none
  | RuntimeObject.unstructured o :: rest =>
      match FlattenToV1 rest with
      | some r => some (o :: r)
      | none => none
  | RuntimeObject.other :: _ => none

/-- Helper for decodeK8s: decoding one element of a wrapper's items into an
Unstructured fails unless the element is a JSON object. -/
def asJObj : JValue → Except String JObj
  | JValue.obj o => Except.ok o
  | _ => Except.error "unable to decode list item into an object"

/-- The shape of the source's slice-building loops (`for _, v := range xs {
r, err := f(v); if err != nil { return nil, err }; ret = append(ret, r) }`):
apply f to each element in order, abort on the first error, collect the
results. -/
def mapExcept {α β : Type} (f : α → Except String β) :
    List α → Except String (List β)
  | [] => Except.ok []
  | a :: t =>
      match f a with
      | Except.error e => Except.error e
      | Except.ok b =>
          match mapExcept f t with
          | Except.error e => Except.error e
          | Except.ok bs => Except.ok (b :: bs)

/-- Modelled from the spec: the coercion of each extracted value to a
runtime object (performed in the source by the external
unstructured.UnstructuredJSONScheme.Decode of k8s.io/apimachinery, whose
code is not part of this repository). Per the spec, a list-wrapper is a
resource descriptor carrying a collection of further descriptors under an
`items` field: an object whose `items` key holds a sequence decodes to an
UnstructuredList of its items, any other object decodes to a plain
Unstructured, and a non-object cannot be decoded. -/
def decodeK8s : JValue → Except String RuntimeObject
  | JValue.obj o =>
      match jitems o with
      | some its =>
          match mapExcept asJObj its with
          | Except.ok us => Except.ok (RuntimeObject.unstructuredList us)
          | Except.error e => Except.error e
      | none => Except.ok (RuntimeObject.unstructured o)
  | _ => Except.error "unable to decode non-object value"

/-- jsonTok8sObjs from jsonnet.go, on an already-decoded top value:
extract with jsonWalk, coerce each extracted value to a runtime object
(decodeK8s, modelled from the spec), then flatten with FlattenToV1; a
panic in the flattener surfaces as an error here. -/
def jsonTok8sObjs (top : JValue) : Except String (List JObj) :=
  match jsonWalk top with
  | Except.error e => Except.error e
  | Except.ok objs =>
      match mapExcept decodeK8s objs with
      | Except.error e => Except.error e
      | Except.ok ros =>
          match FlattenToV1 ros with
          | some out => Except.ok out
          | none => Except.error "panic: Unexpected unstructured object type"

/-- The outcome of an os.Stat call on one path: success (the file exists),
an error satisfying os.IsNotExist, or any other error (e.g. permission
denied). -/
inductive StatResult : Type where
  | ok : StatResult
  | notExist : StatResult
  | otherErr : StatResult
deriving DecidableEq

/-- The filesystem as getJPathsAndFile observes it: the result of stat on
each path. -/
structure GoFs : Type where
  stat : String → StatResult

/-- filepath.Join on two already-clean, nonempty relative-or-absolute
components, the only way the resolver uses it. -/
def pathJoin (a b : String) : String := a ++ "/" ++ b

/-- The NotFound error of the resolver (errorMainNotFound in jsonnet.go),
naming both entry-file candidates. -/
def errorMainNotFound : String :=
  "couldn't find either main.jsonnet or main.libsonnet"

/-- getJPathsAndFile from jsonnet.go, with the working directory (os.Getwd)
and the stat results passed explicitly: builds the three import roots
pwd/lib, pwd/vendor and path/.metadata (the last joined to the raw
environment name, not to pwd), then picks
environments/path/main.libsonnet when stat on it does not report
not-exist, else environments/path/main.jsonnet under the same test, else
fails with errorMainNotFound. -/
def getJPathsAndFile (fs : GoFs) (pwd path : String) :
    Except String (List String × String) :=
  let japths := [pathJoin pwd "lib", pathJoin pwd "vendor",
    pathJoin path ".metadata"]
  let envPath := pathJoin "environments" path
  let libFile := pathJoin envPath "main.libsonnet"
  if fs.stat libFile ≠ StatResult.notExist then Except.ok (japths, libFile)
  else
    let jsFile := pathJoin envPath "main.jsonnet"
    if fs.stat jsFile ≠ StatResult.notExist then Except.ok (japths, jsFile)
    else Except.error errorMainNotFound

/-- One step of the external YAML document decoder
(k8s.io/apimachinery's NewYAMLToJSONDecoder, whose code is not part of this
repository), at its boundary: each Decode call either yields the next
document or an error; the end of the list is the decoder reporting io.EOF. -/
inductive YamlStep : Type where
  | doc : JValue → YamlStep
  | err : String → YamlStep

/-- The parseYaml native function from RegisterNativeFuncs in jsonnet.go,
over the stream of results of the external decoder's Decode calls: starts
from an empty list, appends each decoded document in order, stops at EOF
(end of stream) returning the list, and aborts with the error as soon as
any Decode fails. -/
def parseYaml : List YamlStep → Except String (List JValue)
  | [] => Except.ok []
  | YamlStep.doc d :: rest =>
      match parseYaml rest with
      | Except.ok ds => Except.ok (d :: ds)
      | Except.error e => Except.error e
  | YamlStep.err e :: _ => Except.error e

/-- Modelled from the spec: the stream of documents the external YAML
decoder produces for the input "a: 1\n---\nb: 2\n" — the two documents
{a: 1} and {b: 2} in order, then EOF. -/
def yamlStreamTwoDocs : List YamlStep :=
  [YamlStep.doc (JValue.obj [("a", JValue.num 1)]),
   YamlStep.doc (JValue.obj [("b", JValue.num 2)])]

/-- A value the walk may emit: a JSON object passing the
resource-descriptor test. -/
def IsResV (x : JValue) : Prop :=
  ∃ o, x = JValue.obj o ∧ isResourceL o = true

mutual

theorem jsonWalk_res : ∀ (v : JValue) (objs : List JValue),
    jsonWalk v = Except.ok objs → ∀ x ∈ objs, IsResV x
  | JValue.obj o, objs, h => by
      by_cases hr : isResourceL o
      · rw [jsonWalk, if_pos hr] at h
        cases h
        intro x hx
        simp only [List.mem_singleton] at hx
        exact ⟨o, hx, hr⟩
      · rw [jsonWalk, if_neg hr] at h
        exact jsonWalkFields_res o objs h
  | JValue.arr a, objs, h => by
      rw [jsonWalk] at h
      exact jsonWalkElems_res a objs h
  | JValue.str s, objs, h => by simp [jsonWalk] at h
  | JValue.num n, objs, h => by simp [jsonWalk] at h
  | JValue.bool b, objs, h => by simp [jsonWalk] at h
  | JValue.null, objs, h => by simp [jsonWalk] at h

theorem jsonWalkFields_res : ∀ (kvs : List (String × JValue))
    (objs : List JValue),
    jsonWalkFields kvs = Except.ok objs → ∀ x ∈ objs, IsResV x
  | [], objs, h => by
      rw [jsonWalkFields] at h
      cases h
      intro x hx
      cases hx
  | (k, v) :: rest, objs, h => by
      rw [jsonWalkFields] at h
      cases hv : jsonWalk v with
      | error e => rw [hv] at h; cases h
      | ok cs =>
          rw [hv] at h
          cases hrest : jsonWalkFields rest with
          | error e => rw [hrest] at h; cases h
          | ok rs =>
              rw [hrest] at h
              cases h
              intro x hx
              rcases List.mem_append.mp hx with hx | hx
              · exact jsonWalk_res v cs hv x hx
              · exact jsonWalkFields_res rest rs hrest x hx

theorem jsonWalkElems_res : ∀ (l : List JValue) (objs : List JValue),
    jsonWalkElems l = Except.ok objs → ∀ x ∈ objs, IsResV x
  | [], objs, h => by
      rw [jsonWalkElems] at h
      cases h
      intro x hx
      cases hx
  | v :: rest, objs, h => by
      rw [jsonWalkElems] at h
      cases hv : jsonWalk v with
      | error e => rw [hv] at h; cases h
      | ok cs =>
          rw [hv] at h
          cases hrest : jsonWalkElems rest with
          | error e => rw [hrest] at h; cases h
          | ok rs =>
              rw [hrest] at h
              cases h
              intro x hx
              rcases List.mem_append.mp hx with hx | hx
              · exact jsonWalk_res v cs hv x hx
              · exact jsonWalkElems_res rest rs hrest x hx

end

/-- Every element of a successful mapExcept run comes from applying the
function to some element of the input list. -/
theorem mapExcept_ok_mem {α β : Type} (f : α → Except String β) :
    ∀ (l : List α) (res : List β), mapExcept f l = Except.ok res →
      ∀ b ∈ res, ∃ a ∈ l, f a = Except.ok b := by
  intro l
  induction l with
  | nil =>
      intro res h b hb
      rw [mapExcept] at h
      cases h
      cases hb
  | cons a t ih =>
      intro res h b hb
      rw [mapExcept] at h
      cases ha : f a with
      | error e => rw [ha] at h; cases h
      | ok x =>
          rw [ha] at h
          cases ht : mapExcept f t with
          | error e => rw [ht] at h; cases h
          | ok xs =>
              rw [ht] at h
              cases h
              rcases List.mem_cons.mp hb with hb | hb
              · exact ⟨a, List.mem_cons_self a t, by rw [ha, hb]⟩
              · rcases ih xs ht b hb with ⟨a2, ha2, hfa2⟩
                exact ⟨a2, List.mem_cons_of_mem a ha2, hfa2⟩

/-- Every pointer appended by the aliased range loop refers to one of the
loop's items (namely the last). -/
theorem aliasedItems_mem (items : List JObj) :
    ∀ e ∈ aliasedItems items, e ∈ items := by
  intro e he
  rw [aliasedItems] at he
  cases hl : items.getLast? with
  | none => rw [hl] at he; cases he
  | some last =>
      rw [hl] at he
      rcases List.mem_map.mp he with ⟨x, _, hx⟩
      rw [← hx]
      rcases List.mem_getLast?_eq_getLast (Option.mem_def.mpr hl) with ⟨hne, hlast⟩
      rw [hlast]
      exact List.getLast_mem hne

/-- Every element of a successful FlattenToV1 run is either a plain
Unstructured of the input or an item of one of the input's
UnstructuredLists. -/
theorem flattenToV1_mem : ∀ (ros : List RuntimeObject) (out : List JObj),
    FlattenToV1 ros = some out → ∀ e ∈ out,
      RuntimeObject.unstructured e ∈ ros ∨
      ∃ us, RuntimeObject.unstructuredList us ∈ ros ∧ e ∈ us := by
  intro ros
  induction ros with
  | nil =>
      intro out h e he
      rw [FlattenToV1] at h
      cases h
      cases he
  | cons ro rest ih =>
      intro out h e he
      cases ro with
      | unstructuredList items =>
          rw [FlattenToV1] at h
          cases hr : FlattenToV1 rest with
          | none => rw [hr] at h; cases h
          | some r =>
              rw [hr] at h
              cases h
              rcases List.mem_append.mp he with he | he
              · exact Or.inr ⟨items, List.mem_cons_self _ _,
                  aliasedItems_mem items e he⟩
              · rcases ih r hr e he with h2 | ⟨us, hus, heus⟩
                · exact Or.inl (List.mem_cons_of_mem _ h2)
                · exact Or.inr ⟨us, List.mem_cons_of_mem _ hus, heus⟩
      | unstructured o =>
          rw [FlattenToV1] at h
          cases hr : FlattenToV1 rest with
          | none => rw [hr] at h; cases h
          | some r =>
              rw [hr] at h
              cases h
              rcases List.mem_cons.mp he with he | he
              · exact Or.inl (he ▸ List.mem_cons_self _ _)
              · rcases ih r hr e he with h2 | ⟨us, hus, heus⟩
                · exact Or.inl (List.mem_cons_of_mem _ h2)
                · exact Or.inr ⟨us, List.mem_cons_of_mem _ hus, heus⟩
      | other =>
          rw [FlattenToV1] at h
          cases h

/-- Inverting decodeK8s on a plain Unstructured result: the input was that
very object and it is not a list-wrapper. -/
theorem decodeK8s_unstructured_inv (x : JValue) (o : JObj)
    (h : decodeK8s x = Except.ok (RuntimeObject.unstructured o)) :
    x = JValue.obj o ∧ jitems o = none := by
  cases x with
  | obj o2 =>
      cases hit : jitems o2 with
      | some its =>
          cases hm : mapExcept asJObj its with
          | ok us => simp [decodeK8s, hit, hm] at h
          | error e => simp [decodeK8s, hit, hm] at h
      | none =>
          simp only [decodeK8s, hit, Except.ok.injEq,
            RuntimeObject.unstructured.injEq] at h
          subst h
          exact ⟨rfl, hit⟩
  | str s => simp [decodeK8s] at h
  | num n => simp [decodeK8s] at h
  | bool b => simp [decodeK8s] at h
  | null => simp [decodeK8s] at h
  | arr a => simp [decodeK8s] at h

/-- Inverting decodeK8s on an UnstructuredList result: the input was a
list-wrapper object and every decoded item is one of its `items` elements,
as an object. -/
theorem decodeK8s_list_inv (x : JValue) (us : List JObj)
    (h : decodeK8s x = Except.ok (RuntimeObject.unstructuredList us)) :
    ∃ o its, x = JValue.obj o ∧ jitems o = some its ∧
      ∀ u ∈ us, JValue.obj u ∈ its := by
  cases x with
  | obj o2 =>
      cases hit : jitems o2 with
      | some its =>
          cases hm : mapExcept asJObj its with
          | ok us2 =>
              simp only [decodeK8s, hit, hm, Except.ok.injEq,
                RuntimeObject.unstructuredList.injEq] at h
              subst h
              refine ⟨o2, its, rfl, hit, ?_⟩
              intro u hu
              rcases mapExcept_ok_mem asJObj its us2 hm u hu with ⟨i, hi, hfi⟩
              cases i with
              | obj io =>
                  rw [asJObj] at hfi
                  cases hfi
                  exact hi
              | str s => simp [asJObj] at hfi
              | num n => simp [asJObj] at hfi
              | bool b => simp [asJObj] at hfi
              | null => simp [asJObj] at hfi
              | arr a => simp [asJObj] at hfi
          | error e => simp [decodeK8s, hit, hm] at h
      | none => simp [decodeK8s, hit] at h
  | str s => simp [decodeK8s] at h
  | num n => simp [decodeK8s] at h
  | bool b => simp [decodeK8s] at h
  | null => simp [decodeK8s] at h
  | arr a => simp [decodeK8s] at h

/-- The slice loop of jsonWalk computes, on success, the concatenation of
the children's results: walking each element and joining. -/
theorem jsonWalkElems_concat : ∀ l : List JValue,
    jsonWalkElems l = Except.map List.flatten (mapExcept jsonWalk l) := by
  intro l
  induction l with
  | nil => rfl
  | cons v rest ih =>
      rw [jsonWalkElems, mapExcept]
      cases hv : jsonWalk v with
      | error e => simp [Except.map]
      | ok cs =>
          rw [ih]
          cases hm : mapExcept jsonWalk rest with
          | error e2 => simp [Except.map]
          | ok rss => simp [Except.map]

/-- The map loop of jsonWalk walks exactly the mapping's values, in
iteration order. -/
theorem jsonWalkFields_elems : ∀ kvs : List (String × JValue),
    jsonWalkFields kvs = jsonWalkElems (kvs.map Prod.snd) := by
  intro kvs
  induction kvs with
  | nil => rfl
  | cons kv rest ih =>
      rw [List.map_cons, jsonWalkFields, jsonWalkElems, ih]

/-- A decoded JSON value that is neither a mapping nor a sequence: a bare
scalar or null. -/
def isScalarOrNull : JValue → Bool
  | JValue.obj _ => false
  | JValue.arr _ => false
  | _ => true

/-- The spec's extraction-termination example, as a JSON object:
a Pod descriptor whose spec nests another kind/apiVersion-carrying map. -/
def nestedPodObj : JObj :=
  [("kind", JValue.str "Pod"), ("apiVersion", JValue.str "v1"),
   ("spec", JValue.obj [("kind", JValue.str "X"),
     ("apiVersion", JValue.str "Y")])]

/-- The spec's recursive-discovery example:
{"a": pod descriptor, "b": [service descriptor]}. -/
def twoBranch : JValue :=
  JValue.obj
    [("a", JValue.obj [("kind", JValue.str "Pod"),
       ("apiVersion", JValue.str "v1")]),
     ("b", JValue.arr [JValue.obj [("kind", JValue.str "Service"),
       ("apiVersion", JValue.str "v1")]])]

/-- First of two distinct Pod items for the flattening example. -/
def podItemA : JObj :=
  [("kind", JValue.str "Pod"), ("apiVersion", JValue.str "v1"),
   ("metadata", JValue.obj [("name", JValue.str "pod-a")])]

/-- Second of two distinct Pod items for the flattening example. -/
def podItemB : JObj :=
  [("kind", JValue.str "Pod"), ("apiVersion", JValue.str "v1"),
   ("metadata", JValue.obj [("name", JValue.str "pod-b")])]

/-- A list-wrapper whose single contained item lacks apiVersion. -/
def wrapperBadItem : JValue :=
  JValue.obj
    [("kind", JValue.str "List"), ("apiVersion", JValue.str "v1"),
     ("items", JValue.arr [JValue.obj [("kind", JValue.str "Pod")]])]

/-- A plain resource descriptor with no items field. -/
def podSimpleObj : JObj :=
  [("kind", JValue.str "Pod"), ("apiVersion", JValue.str "v1")]

/-- The three import roots the resolver builds: pwd/lib, pwd/vendor and
path/.metadata. -/
def importRoots (pwd path : String) : List String :=
  [pathJoin pwd "lib", pathJoin pwd "vendor", pathJoin path ".metadata"]

/-- The first entry-file candidate, environments/path/main.libsonnet. -/
def libsonnetFile (path : String) : String :=
  pathJoin (pathJoin "environments" path) "main.libsonnet"

/-- The second entry-file candidate, environments/path/main.jsonnet. -/
def jsonnetFile (path : String) : String :=
  pathJoin (pathJoin "environments" path) "main.jsonnet"

/-- A filesystem on which stat succeeds for every path. -/
def fsAllExists : GoFs := GoFs.mk fun _ => StatResult.ok

/-- A second, syntactically different filesystem with the same stat
results as fsAllExists. -/
def fsAllExistsToo : GoFs :=
  GoFs.mk fun f => if f.length = f.length then StatResult.ok
    else StatResult.notExist

/-- A filesystem on which every stat fails with a non-not-exist error
(e.g. permission denied). -/
def fsPermDenied : GoFs := GoFs.mk fun _ => StatResult.otherErr

/-- C1: the spec's flattener contract — a wrapper's contained items are
appended individually, in order, so a wrapper with two distinct Pod items
yields exactly those two items — fails on the code: the range loop appends
the address of its per-loop variable, so both returned entries are the
second item. Evaluating FlattenToV1 at the failing input shows the
divergence, together with the fact that the two items are distinct. -/
theorem flattenToV1_aliases_last_item :
    FlattenToV1 [RuntimeObject.unstructuredList [podItemA, podItemB]] =
      some [podItemB, podItemB] ∧ podItemA ≠ podItemB := by
  constructor
  · rfl
  · simp [podItemA, podItemB]

/-- C2: a decoded mapping with non-null kind and non-null apiVersion keys
is returned by extraction as a single-element result, its children never
recursed into. -/
theorem jsonWalk_matched_object_terminates (o : JObj)
    (hk : isNonNull (jlookup o "kind") = true)
    (ha : isNonNull (jlookup o "apiVersion") = true) :
    jsonWalk (JValue.obj o) = Except.ok [JValue.obj o] := by
  rw [jsonWalk, if_pos]
  rw [isResourceL, hk, ha]
  rfl

/-- Witness for C2 at the spec's example: the outer Pod descriptor with a
nested kind/apiVersion-carrying map is returned alone, the inner object
never visited. -/
theorem jsonWalk_matched_object_terminates_witness :
    jsonWalk (JValue.obj nestedPodObj) =
      Except.ok [JValue.obj nestedPodObj] :=
  jsonWalk_matched_object_terminates nestedPodObj rfl rfl

/-- C3: extraction of a decoded value that is neither a mapping nor a
sequence (a bare scalar or null) fails with an error identifying the
unexpected Go type. -/
theorem jsonWalk_scalar_fails (v : JValue)
    (h : isScalarOrNull v = true) :
    jsonWalk v =
      Except.error ("Unexpected object structure: " ++ goTypeName v) := by
  cases v with
  | obj o => simp [isScalarOrNull] at h
  | arr a => simp [isScalarOrNull] at h
  | str s => rfl
  | num n => rfl
  | bool b => rfl
  | null => rfl

/-- Witness for C3: extracting from the top-level input "just a string"
fails with the structure error naming the Go string type. -/
theorem jsonWalk_scalar_fails_witness :
    jsonWalk (JValue.str "just a string") =
      Except.error "Unexpected object structure: string" :=
  jsonWalk_scalar_fails (JValue.str "just a string") rfl

/-- C4: entry-file resolution order — main.libsonnet is used when it
exists; otherwise main.jsonnet is used when it exists; when neither
exists the resolver fails with the NotFound error naming both candidates;
and when both exist, main.libsonnet is always selected. -/
theorem getJPathsAndFile_resolution_order (fs : GoFs) (pwd path : String) :
    (fs.stat (libsonnetFile path) = StatResult.ok →
      getJPathsAndFile fs pwd path =
        Except.ok (importRoots pwd path, libsonnetFile path)) ∧
    (fs.stat (libsonnetFile path) = StatResult.notExist →
      fs.stat (jsonnetFile path) = StatResult.ok →
      getJPathsAndFile fs pwd path =
        Except.ok (importRoots pwd path, jsonnetFile path)) ∧
    (fs.stat (libsonnetFile path) = StatResult.notExist →
      fs.stat (jsonnetFile path) = StatResult.notExist →
      getJPathsAndFile fs pwd path = Except.error errorMainNotFound) ∧
    (fs.stat (libsonnetFile path) = StatResult.ok →
      fs.stat (jsonnetFile path) = StatResult.ok →
      getJPathsAndFile fs pwd path =
        Except.ok (importRoots pwd path, libsonnetFile path)) := by
  refine ⟨?_, ?_, ?_, ?_⟩
  · intro h1
    simp [getJPathsAndFile, libsonnetFile, importRoots] at h1 ⊢
    simp [h1]
  · intro h1 h2
    simp [getJPathsAndFile, libsonnetFile, jsonnetFile, importRoots]
      at h1 h2 ⊢
    simp [h1, h2]
  · intro h1 h2
    simp [getJPathsAndFile, libsonnetFile, jsonnetFile] at h1 h2 ⊢
    simp [h1, h2]
  · intro h1 h2
    simp [getJPathsAndFile, libsonnetFile, importRoots] at h1 ⊢
    simp [h1]

/-- Witness for C4 on a filesystem where both candidates exist:
main.libsonnet is selected. -/
theorem getJPathsAndFile_resolution_order_witness :
    getJPathsAndFile fsAllExists "w" "e" =
      Except.ok (importRoots "w" "e", libsonnetFile "e") :=
  (getJPathsAndFile_resolution_order fsAllExists "w" "e").2.2.2 rfl rfl

/-- C5: whenever resolution succeeds, the returned import roots are
exactly three, in order: pwd/lib, pwd/vendor, and path/.metadata (the
last joined to the raw environment name). -/
theorem getJPathsAndFile_import_roots (fs : GoFs) (pwd path : String)
    (jp : List String) (file : String)
    (h : getJPathsAndFile fs pwd path = Except.ok (jp, file)) :
    jp = importRoots pwd path ∧ jp.length = 3 := by
  simp only [getJPathsAndFile] at h
  split at h
  · simp only [Except.ok.injEq, Prod.mk.injEq] at h
    refine ⟨h.1.symm, ?_⟩
    rw [← h.1]
    rfl
  · split at h
    · simp only [Except.ok.injEq, Prod.mk.injEq] at h
      refine ⟨h.1.symm, ?_⟩
      rw [← h.1]
      rfl
    · cases h

/-- Witness for C5 at a concrete filesystem and names. -/
theorem getJPathsAndFile_import_roots_witness :
    importRoots "w" "e" = importRoots "w" "e" ∧
      (importRoots "w" "e").length = 3 :=
  getJPathsAndFile_import_roots fsAllExists "w" "e"
    (importRoots "w" "e") (libsonnetFile "e") rfl

/-- C6: on a mapping that is not itself a resource descriptor, extraction
walks every value of the mapping (in iteration order) and returns the
concatenation of the children's results; on a sequence it walks every
element in order and concatenates; and the two-branch example yields
exactly the two descriptors. -/
theorem jsonWalk_recursive_concat :
    (∀ o : JObj, isResourceL o = false →
      jsonWalk (JValue.obj o) =
        Except.map List.flatten (mapExcept jsonWalk (o.map Prod.snd))) ∧
    (∀ l : List JValue,
      jsonWalk (JValue.arr l) =
        Except.map List.flatten (mapExcept jsonWalk l)) ∧
    jsonWalk twoBranch =
      Except.ok [JValue.obj [("kind", JValue.str "Pod"),
          ("apiVersion", JValue.str "v1")],
        JValue.obj [("kind", JValue.str "Service"),
          ("apiVersion", JValue.str "v1")]] := by
  refine ⟨?_, ?_, ?_⟩
  · intro o h
    rw [jsonWalk, if_neg (by simp [h]), jsonWalkFields_elems,
      jsonWalkElems_concat]
  · intro l
    rw [jsonWalk, jsonWalkElems_concat]
  · rfl

/-- Witness for C6 at a one-field non-descriptor mapping. -/
theorem jsonWalk_recursive_concat_witness :
    jsonWalk (JValue.obj [("x", JValue.arr [])]) = Except.ok [] :=
  (jsonWalk_recursive_concat.1 [("x", JValue.arr [])] rfl).trans rfl

/-- C7 as stated is false: the pipeline succeeds on a list-wrapper whose
single contained item lacks apiVersion, and the output then contains an
element with a null apiVersion. -/
theorem pipeline_invariant_counterexample :
    jsonTok8sObjs wrapperBadItem =
      Except.ok [[("kind", JValue.str "Pod")]] ∧
    isNonNull (jlookup [("kind", JValue.str "Pod")] "apiVersion")
      = false :=
  ⟨rfl, rfl⟩

/-- C7 amended: for every input on which the pipeline succeeds and in
which every extracted list-wrapper's contained items are themselves
objects with non-null kind and apiVersion and no items sequence, every
element of the output has non-null kind and apiVersion and none is a
list-wrapper. -/
theorem pipeline_flatten_invariant (top : JValue) (objs : List JValue)
    (out : List JObj)
    (hwalk : jsonWalk top = Except.ok objs)
    (hout : jsonTok8sObjs top = Except.ok out)
    (hitems : ∀ o its, JValue.obj o ∈ objs → jitems o = some its →
      ∀ i ∈ its, ∃ io, i = JValue.obj io ∧ isResourceL io = true ∧
        jitems io = none) :
    ∀ e ∈ out, isResourceL e = true ∧ jitems e = none := by
  simp only [jsonTok8sObjs, hwalk] at hout
  cases hros : mapExcept decodeK8s objs with
  | error e2 => rw [hros] at hout; cases hout
  | ok ros =>
      rw [hros] at hout
      dsimp only at hout
      cases hfl : FlattenToV1 ros with
      | none => rw [hfl] at hout; cases hout
      | some out2 =>
          rw [hfl] at hout
          injection hout with hoo
          subst hoo
          intro e he
          rcases flattenToV1_mem ros out2 hfl e he with hmem | ⟨us, hus, heus⟩
          · rcases mapExcept_ok_mem decodeK8s objs ros hros _ hmem
              with ⟨x, hx, hdx⟩
            rcases decodeK8s_unstructured_inv x e hdx with ⟨hxe, hnone⟩
            rcases jsonWalk_res top objs hwalk x hx with ⟨o, hxo, hro⟩
            rw [hxe] at hxo
            injection hxo with hoe
            subst hoe
            exact ⟨hro, hnone⟩
          · rcases mapExcept_ok_mem decodeK8s objs ros hros _ hus
              with ⟨x, hx, hdx⟩
            rcases decodeK8s_list_inv x us hdx with ⟨o, its, hxo, hoits, hitem⟩
            have hobj : JValue.obj o ∈ objs := hxo ▸ hx
            rcases hitems o its hobj hoits (JValue.obj e) (hitem e heus)
              with ⟨io, hio, hres, hnone⟩
            injection hio with hio2
            subst hio2
            exact ⟨hres, hnone⟩

/-- Witness for the amended C7 at a plain Pod descriptor input. -/
theorem pipeline_flatten_invariant_witness :
    isResourceL podSimpleObj = true ∧ jitems podSimpleObj = none :=
  pipeline_flatten_invariant (JValue.obj podSimpleObj)
    [JValue.obj podSimpleObj] [podSimpleObj] rfl rfl
    (by
      intro o its hmem hits i hi
      rw [List.mem_singleton] at hmem
      injection hmem with h2
      subst h2
      simp [podSimpleObj, jitems, jlookup] at hits)
    podSimpleObj (List.mem_singleton.mpr rfl)

/-- C8: resolving the same environment name twice against the same
working directory and the same stat results yields identical import paths
and entry file. -/
theorem getJPathsAndFile_deterministic (fs1 fs2 : GoFs)
    (pwd path : String) (h : ∀ f, fs1.stat f = fs2.stat f) :
    getJPathsAndFile fs1 pwd path = getJPathsAndFile fs2 pwd path := by
  simp only [getJPathsAndFile, h]

/-- Witness for C8: two filesystems with pointwise-equal stat results
resolve identically. -/
theorem getJPathsAndFile_deterministic_witness :
    getJPathsAndFile fsAllExists "w" "e" =
      getJPathsAndFile fsAllExistsToo "w" "e" :=
  getJPathsAndFile_deterministic fsAllExists fsAllExistsToo "w" "e"
    (fun f => by simp [fsAllExists, fsAllExistsToo])

/-- C9: the parseYaml loop turns the decoder's document stream into a
list in document order, returns the empty list for an empty stream
(empty input), aborts with the decoder's error when any document is
malformed, and on the spec's two-document input yields [{a:1},{b:2}]. -/
theorem parseYaml_documents :
    (∀ ds : List JValue,
      parseYaml (ds.map YamlStep.doc) = Except.ok ds) ∧
    (∀ (pre : List JValue) (e : String) (post : List YamlStep),
      parseYaml (pre.map YamlStep.doc ++ YamlStep.err e :: post) =
        Except.error e) ∧
    parseYaml [] = Except.ok [] ∧
    parseYaml yamlStreamTwoDocs =
      Except.ok [JValue.obj [("a", JValue.num 1)],
        JValue.obj [("b", JValue.num 2)]] := by
  refine ⟨?_, ?_, rfl, rfl⟩
  · intro ds
    induction ds with
    | nil => rfl
    | cons d rest ih => rw [List.map_cons, parseYaml, ih]
  · intro pre e post
    induction pre with
    | nil => rfl
    | cons d rest ih => rw [List.map_cons, List.cons_append, parseYaml, ih]

/-- Witness for C9 at a one-document stream. -/
theorem parseYaml_documents_witness :
    parseYaml [YamlStep.doc JValue.null] = Except.ok [JValue.null] :=
  parseYaml_documents.1 [JValue.null]

/-- C10: when stat on an entry-file candidate fails with an error other
than not-exist (e.g. permission denied), the resolver treats the
candidate as existing and selects it, instead of propagating the error or
falling through to the next candidate. -/
theorem getJPathsAndFile_stat_error_selects (fs : GoFs)
    (pwd path : String) :
    (fs.stat (libsonnetFile path) = StatResult.otherErr →
      getJPathsAndFile fs pwd path =
        Except.ok (importRoots pwd path, libsonnetFile path)) ∧
    (fs.stat (libsonnetFile path) = StatResult.notExist →
      fs.stat (jsonnetFile path) = StatResult.otherErr →
      getJPathsAndFile fs pwd path =
        Except.ok (importRoots pwd path, jsonnetFile path)) := by
  constructor
  · intro h1
    simp [getJPathsAndFile, libsonnetFile, importRoots] at h1 ⊢
    simp [h1]
  · intro h1 h2
    simp [getJPathsAndFile, libsonnetFile, jsonnetFile, importRoots]
      at h1 h2 ⊢
    simp [h1, h2]

/-- Witness for C10 on a filesystem whose stat calls all fail with a
permission error: main.libsonnet is selected. -/
theorem getJPathsAndFile_stat_error_selects_witness :
    getJPathsAndFile fsPermDenied "w" "e" =
      Except.ok (importRoots "w" "e", libsonnetFile "e") :=
  (getJPathsAndFile_stat_error_selects fsPermDenied "w" "e").1 rfl


end Templator
